import Mathlib

/-!
# Verification of the poketerm terminal image renderer

Shallow embedding of `get_ascii_image` from `src/main.py` (the core
renderer, lines 69-105) and of the target-width resolution logic
(lines 73-78), together with proofs of the specification's claims.

Modelling conventions:

* A decoded RGBA raster (`PIL.Image` after `convert("RGBA")`) is a
  `Raster`: width, height, and a per-pixel accessor `pixel x y`.
* Python floats are modelled as exact rationals: the source computes
  `height_chars = int(width * (original_height / original_width) * 0.48)`;
  with exact arithmetic and nonnegative operands `int(...)` is the floor
  of `width * H * 48 / (W * 100)`, i.e. `Nat` division.
* Python exceptions are modelled as `Except.error`:
  - `aspect_ratio = original_height / original_width` (line 71) raises
    `ZeroDivisionError` when the decoded width is 0;
  - `img.resize((width, height_chars * 2), LANCZOS)` (line 81) raises
    `ValueError: height and width must be > 0` (Pillow's `_resize` rejects
    any target dimension < 1) whenever `width < 1` or `height_chars = 0`.
* The Lanczos resampler itself is an external numerical routine; the
  renderer is parameterised over a `resample` function that produces the
  pixel content of the resized raster.  `PIL.Image.resize` always returns
  an image of exactly the requested dimensions, so the resized raster's
  dimensions are the requested ones by construction.
* `rich.text.Text` output is modelled as a `List TextItem`: the sequence
  of appended cells and newline separators, in order.
-/

/-- One RGBA pixel sample: four 8-bit channels as returned by
`img.getpixel((x, y))`. -/
structure RGBA where
  r : Nat
  g : Nat
  b : Nat
  a : Nat
deriving DecidableEq, Repr

/-- A decoded raster image: dimensions plus per-pixel RGBA lookup
(`img.size` and `img.getpixel`). -/
structure Raster where
  width : Nat
  height : Nat
  pixel : Nat → Nat → RGBA

/-- One character position of the output: the glyph appended by
`text.append`, the terminal foreground color (`Style(color=...)`) and the
terminal background color (`Style(bgcolor=...)`), each optional. -/
structure Cell where
  glyph : Char
  fg : Option (Nat × Nat × Nat)
  bg : Option (Nat × Nat × Nat)
deriving DecidableEq, Repr

/-- U+2580 UPPER HALF BLOCK, the `"▀"` literal of `src/main.py` line 100. -/
def upperHalfBlock : Char := '▀'

/-- U+2584 LOWER HALF BLOCK, the `"▄"` literal of `src/main.py` lines 96/98. -/
def lowerHalfBlock : Char := '▄'

/-- The RGB triple of a sample, as interpolated into `f"rgb({r},{g},{b})"`. -/
def RGBA.rgb (p : RGBA) : Nat × Nat × Nat := (p.r, p.g, p.b)

/-- Line 92: `fg_color = f"rgb({r2},{g2},{b2})" if a2 > 128 else None`. -/
def fgColor (p : RGBA) : Option (Nat × Nat × Nat) :=
  if 128 < p.a then some p.rgb else none

/-- Line 93: `bg_color = f"rgb({r1},{g1},{b1})" if a1 > 128 else None`. -/
def bgColor (p : RGBA) : Option (Nat × Nat × Nat) :=
  if 128 < p.a then some p.rgb else none

/-- Lines 92-102: build one output cell from the upper sample `p1`
(pixel at `(x, y)`) and the lower sample `p2` (pixel at `(x, y+1)`). -/
def mkCell (p1 p2 : RGBA) : Cell :=
  match fgColor p2, bgColor p1 with
  | some f, some b => ⟨lowerHalfBlock, some f, some b⟩
  | some f, none => ⟨lowerHalfBlock, some f, none⟩
  | none, some b => ⟨upperHalfBlock, some b, none⟩
  | none, none => ⟨' ', none, none⟩

/-- The blank cell appended by `text.append(" ")`. -/
def blankCell : Cell := ⟨' ', none, none⟩

/-- An element of the produced `rich.text.Text`: an appended styled cell,
or the `"\n"` row separator. -/
inductive TextItem where
  | cell (c : Cell)
  | sep
deriving DecidableEq, Repr

/-- Lines 85-102, the inner loop over `x in range(img.width)`: the cells of
the character row whose upper pixel row is `y`.  When `y + 1 < img.height`
fails, the lower sample is the synthetic fully transparent pixel
`(0, 0, 0, 0)` of line 90. -/
def rowCells (img : Raster) (y : Nat) : List Cell :=
  (List.range img.width).map (fun x =>
    mkCell (img.pixel x y)
      (if y + 1 < img.height then img.pixel x (y + 1) else ⟨0, 0, 0, 0⟩))

/-- Lines 84-104, the outer loop `for y in range(0, img.height, 2)`,
compiled with its iteration count `n = ⌈height / 2⌉` as structural fuel:
each iteration appends the row's cells, then `"\n"` when `y + 2 < height`
(line 103). -/
def renderFrom (img : Raster) : Nat → Nat → List TextItem
  | 0, _ => []
  | n + 1, y =>
      (rowCells img y).map TextItem.cell
        ++ (if y + 2 < img.height then [TextItem.sep] else [])
        ++ renderFrom img n (y + 2)

/-- The full `Text` body produced by the loop of lines 84-104:
`range(0, height, 2)` has `(height + 1) / 2` elements. -/
def renderBody (img : Raster) : List TextItem :=
  renderFrom img ((img.height + 1) / 2) 0

/-- The rows of the output grid, one per iteration of the outer loop. -/
def rowsFrom (img : Raster) : Nat → Nat → List (List Cell)
  | 0, _ => []
  | n + 1, y => rowCells img y :: rowsFrom img n (y + 2)

/-- The output grid as a list of rows of cells. -/
def renderRows (img : Raster) : List (List Cell) :=
  rowsFrom img ((img.height + 1) / 2) 0

/-- Line 80 with exact rational arithmetic:
`height_chars = int(width * (H / W) * 0.48) = ⌊width * H * 48 / (W * 100)⌋`. -/
def heightChars (w W H : Nat) : Nat :=
  w * H * 48 / (W * 100)

/-- The uncaught Python exceptions of the render path. -/
inductive PyErr where
  /-- `ZeroDivisionError` from `original_height / original_width` (line 71). -/
  | zeroDivision
  /-- Pillow's `ValueError: height and width must be > 0` from `img.resize`
  (line 81) when a requested dimension is < 1. -/
  | valueError
deriving DecidableEq, Repr

/-- A resampling function: given the source raster and the requested target
dimensions, the pixel content of the resized raster.  Stands for Pillow's
Lanczos resampler, whose numerical kernel is external to this repository. -/
def Resample : Type := Raster → Nat → Nat → Nat → Nat → RGBA

/-- Line 81: `img = img.resize((width, height_chars * 2), LANCZOS)`.
Pillow returns an image of exactly the requested size, so the dimensions
are `width × height_chars * 2` by construction; the pixel content comes
from the resampler. -/
def resizedRaster (resample : Resample) (img : Raster) (w : Nat) : Raster :=
  let hc := heightChars w img.width img.height
  ⟨w, hc * 2, resample img w (hc * 2)⟩

/-- Lines 69-105 of `src/main.py` after decoding: the core renderer.
Fails with `ZeroDivisionError` when the raster width is 0 (line 71), and
with Pillow's `ValueError` when a requested resize dimension is < 1
(line 81); otherwise returns the `Text` built by the loop. -/
def render (resample : Resample) (img : Raster) (w : Nat) :
    Except PyErr (List TextItem) :=
  if img.width = 0 then
    Except.error PyErr.zeroDivision
  else if w < 1 ∨ heightChars w img.width img.height * 2 < 1 then
    Except.error PyErr.valueError
  else
    Except.ok (renderBody (resizedRaster resample img w))

/-- Python truthiness of an optional integer argument (`if size:`):
`None` and `0` are falsy. -/
def truthy : Option Int → Bool
  | none => false
  | some n => n ≠ 0

/-- Lines 73-78: resolution of the target character width from the `size`
argument, the `width` argument, and the detected `console.width`. -/
def resolveWidth (size width : Option Int) (consoleWidth : Int) : Int :=
  if truthy size then size.getD 0
  else min ((width.getD consoleWidth) - 4) 100

/-- A concrete executable resampler (nearest-neighbour), used to witness
theorems that hold for every resampler. -/
def nearestResample : Resample :=
  fun img w h x y => img.pixel (x * img.width / w) (y * img.height / h)

/-- A raster with constant pixel content. -/
def constRaster (w h : Nat) (p : RGBA) : Raster := ⟨w, h, fun _ _ => p⟩

/-- Number of `"\n"` separators in an output. -/
def countSep : List TextItem → Nat
  | [] => 0
  | TextItem.sep :: rest => countSep rest + 1
  | TextItem.cell _ :: rest => countSep rest

/-- Rows joined by single separators, with no trailing separator. -/
def sepJoin : List (List Cell) → List TextItem
  | [] => []
  | [row] => row.map TextItem.cell
  | row :: rest => row.map TextItem.cell ++ TextItem.sep :: sepJoin rest

/-- The resampler maps fully transparent sources to fully transparent
output: the spec requires alpha-channel interpolation, and interpolating
all-zero alphas yields zero. -/
def PreservesTransparent (resample : Resample) : Prop :=
  ∀ img w h, (∀ x y, (img.pixel x y).a = 0) →
    ∀ x y, (resample img w h x y).a = 0

/-- The resampler maps constant sources to constant output: resampling a
uniformly colored image reproduces that color. -/
def PreservesConst (resample : Resample) : Prop :=
  ∀ img w h p, (∀ x y, img.pixel x y = p) →
    ∀ x y, resample img w h x y = p

example : heightChars 1 100 1 = 0 := by decide
example : heightChars 3 1 1 = 1 := by decide
example : mkCell ⟨1, 2, 3, 255⟩ ⟨4, 5, 6, 255⟩
    = ⟨lowerHalfBlock, some (4, 5, 6), some (1, 2, 3)⟩ := by decide

/-- Every cell of the output is blank: no glyph but the space, no colors. -/
def allCellsBlank (t : List TextItem) : Prop :=
  ∀ q, TextItem.cell q ∈ t → q = blankCell

/-! ## Structural lemmas about the render loop -/

theorem rowCells_length (img : Raster) (y : Nat) :
    (rowCells img y).length = img.width := by
  simp [rowCells]

theorem rowsFrom_length (img : Raster) : ∀ n y, (rowsFrom img n y).length = n := by
  intro n
  induction n with
  | zero => intro y; rfl
  | succ n ih => intro y; simp [rowsFrom, ih]

theorem rowsFrom_mem_length (img : Raster) :
    ∀ n y row, row ∈ rowsFrom img n y → row.length = img.width := by
  intro n
  induction n with
  | zero => intro y row h; cases h
  | succ n ih =>
    intro y row h
    rcases List.mem_cons.mp h with h | h
    · rw [h]; exact rowCells_length img y
    · exact ih (y + 2) row h

theorem rowsFrom_getLast (img : Raster) :
    ∀ n y, (rowsFrom img (n + 1) y).getLast? = some (rowCells img (y + 2 * n)) := by
  intro n
  induction n with
  | zero => intro y; rfl
  | succ n ih =>
    intro y
    have h2 : rowsFrom img (n + 2) y
        = rowCells img y :: rowCells img (y + 2) :: rowsFrom img n (y + 4) := rfl
    rw [h2, List.getLast?_cons_cons]
    have := ih (y + 2)
    have h3 : rowsFrom img (n + 1) (y + 2)
        = rowCells img (y + 2) :: rowsFrom img n (y + 4) := rfl
    rw [h3] at this
    rw [this]
    congr 2
    omega

theorem rowsFrom_eq_map_range (img : Raster) :
    ∀ n y, rowsFrom img n y
      = (List.range n).map (fun k => rowCells img (y + 2 * k)) := by
  intro n
  induction n with
  | zero => intro y; rfl
  | succ n ih =>
    intro y
    rw [List.range_succ_eq_map]
    simp only [rowsFrom, List.map_cons, Nat.mul_zero, Nat.add_zero, List.map_map]
    rw [ih (y + 2)]
    congr 1
    apply List.map_congr_left
    intro k _
    simp only [Function.comp_apply]
    congr 1
    omega

theorem countSep_append (a b : List TextItem) :
    countSep (a ++ b) = countSep a + countSep b := by
  induction a with
  | nil => simp [countSep]
  | cons x rest ih =>
    cases x with
    | cell c => simpa [countSep] using ih
    | sep => simp [countSep, ih]; omega

theorem countSep_map_cell (row : List Cell) :
    countSep (row.map TextItem.cell) = 0 := by
  induction row with
  | nil => rfl
  | cons c rest ih => simpa [countSep] using ih

theorem countSep_sepJoin :
    ∀ rows : List (List Cell), rows ≠ [] →
      countSep (sepJoin rows) = rows.length - 1 := by
  intro rows
  induction rows with
  | nil => intro h; exact absurd rfl h
  | cons row rest ih =>
    intro _
    cases rest with
    | nil => simp [sepJoin, countSep_map_cell]
    | cons r2 rest2 =>
      have hr := ih (by simp)
      have : sepJoin (row :: r2 :: rest2)
          = row.map TextItem.cell ++ TextItem.sep :: sepJoin (r2 :: rest2) := rfl
      rw [this, countSep_append, countSep_map_cell]
      simp only [countSep]
      simp at hr ⊢
      omega

theorem map_cell_ne_nil (row : List Cell) (h : row ≠ []) :
    row.map TextItem.cell ≠ [] := by
  simpa using h

theorem map_cell_getLast (row : List Cell) (h : row ≠ []) :
    ∃ q, (row.map TextItem.cell).getLast? = some (TextItem.cell q) := by
  induction row with
  | nil => exact absurd rfl h
  | cons c rest ih =>
    cases rest with
    | nil => exact ⟨c, rfl⟩
    | cons c2 rest2 =>
      obtain ⟨q, hq⟩ := ih (by simp)
      refine ⟨q, ?_⟩
      simp only [List.map_cons] at hq ⊢
      rw [List.getLast?_cons_cons]
      exact hq

theorem sepJoin_getLast :
    ∀ rows : List (List Cell), rows ≠ [] → (∀ row ∈ rows, row ≠ []) →
      ∃ q, (sepJoin rows).getLast? = some (TextItem.cell q) := by
  intro rows
  induction rows with
  | nil => intro h; exact absurd rfl h
  | cons row rest ih =>
    intro _ hrows
    cases rest with
    | nil =>
      exact map_cell_getLast row (hrows row (by simp))
    | cons r2 rest2 =>
      obtain ⟨q, hq⟩ := ih (by simp) (fun r hr => hrows r (List.mem_cons_of_mem _ hr))
      refine ⟨q, ?_⟩
      have h1 : sepJoin (row :: r2 :: rest2)
          = (row.map TextItem.cell ++ [TextItem.sep]) ++ sepJoin (r2 :: rest2) := by
        simp [sepJoin]
      have h2 : sepJoin (r2 :: rest2) ≠ [] := by
        intro hnil
        rw [hnil] at hq
        cases hq
      rw [h1, List.getLast?_append_of_ne_nil _ h2]
      exact hq

theorem renderFrom_eq_sepJoin (img : Raster) :
    ∀ n y, (y + 2 * n = img.height ∨ y + 2 * n = img.height + 1) →
      renderFrom img n y = sepJoin (rowsFrom img n y) := by
  intro n
  induction n with
  | zero => intro y _; rfl
  | succ n ih =>
    intro y hy
    cases n with
    | zero =>
      have hg : ¬ (y + 2 < img.height) := by omega
      simp [renderFrom, rowsFrom, sepJoin, hg]
    | succ m =>
      have hg : y + 2 < img.height := by omega
      have hrec := ih (y + 2) (by omega)
      have h1 : renderFrom img (m + 2) y
          = (rowCells img y).map TextItem.cell
            ++ (if y + 2 < img.height then [TextItem.sep] else [])
            ++ renderFrom img (m + 1) (y + 2) := rfl
      have h2 : rowsFrom img (m + 2) y
          = rowCells img y :: rowCells img (y + 2) :: rowsFrom img m (y + 4) := rfl
      have h3 : sepJoin (rowCells img y :: rowCells img (y + 2) :: rowsFrom img m (y + 4))
          = (rowCells img y).map TextItem.cell
            ++ TextItem.sep :: sepJoin (rowCells img (y + 2) :: rowsFrom img m (y + 4)) := rfl
      rw [h1, h2, h3, if_pos hg]
      have h4 : rowsFrom img (m + 1) (y + 2)
          = rowCells img (y + 2) :: rowsFrom img m (y + 4) := rfl
      rw [h4] at hrec
      rw [hrec]
      simp

theorem cell_mem_rowCells (img : Raster) (y : Nat) (q : Cell)
    (h : q ∈ rowCells img y) :
    ∃ x, x < img.width ∧
      q = mkCell (img.pixel x y)
        (if y + 1 < img.height then img.pixel x (y + 1) else ⟨0, 0, 0, 0⟩) := by
  simp only [rowCells, List.mem_map, List.mem_range] at h
  obtain ⟨x, hx, hq⟩ := h
  exact ⟨x, hx, hq.symm⟩

theorem cell_mem_renderFrom (img : Raster) :
    ∀ n y q, TextItem.cell q ∈ renderFrom img n y →
      ∃ k x, k < n ∧ x < img.width ∧
        q = mkCell (img.pixel x (y + 2 * k))
          (if y + 2 * k + 1 < img.height then img.pixel x (y + 2 * k + 1)
           else ⟨0, 0, 0, 0⟩) := by
  intro n
  induction n with
  | zero => intro y q h; cases h
  | succ n ih =>
    intro y q h
    simp only [renderFrom, List.append_assoc, List.mem_append] at h
    rcases h with h | h | h
    · simp only [List.mem_map] at h
      obtain ⟨c, hc, hcq⟩ := h
      obtain ⟨x, hx, hq⟩ := cell_mem_rowCells img y c hc
      refine ⟨0, x, Nat.succ_pos n, hx, ?_⟩
      have : q = c := by cases hcq; rfl
      rw [this, hq]
      simp
    · exfalso
      split at h <;> simp at h
    · obtain ⟨k, x, hk, hx, hq⟩ := ih (y + 2) q h
      refine ⟨k + 1, x, by omega, hx, ?_⟩
      have harith : y + 2 + 2 * k = y + 2 * (k + 1) := by omega
      rw [harith] at hq
      exact hq


/-! ## Inversion of a successful render -/

theorem resized_width (resample : Resample) (img : Raster) (w : Nat) :
    (resizedRaster resample img w).width = w := rfl

theorem resized_height (resample : Resample) (img : Raster) (w : Nat) :
    (resizedRaster resample img w).height
      = heightChars w img.width img.height * 2 := rfl

theorem resized_rowCount (resample : Resample) (img : Raster) (w : Nat) :
    ((resizedRaster resample img w).height + 1) / 2
      = heightChars w img.width img.height := by
  rw [resized_height]
  omega

theorem render_ok_inv {resample : Resample} {img : Raster} {w : Nat}
    {t : List TextItem} (h : render resample img w = Except.ok t) :
    1 ≤ img.width ∧ 1 ≤ w ∧ 1 ≤ heightChars w img.width img.height ∧
    t = renderBody (resizedRaster resample img w) := by
  unfold render at h
  by_cases h1 : img.width = 0
  · rw [if_pos h1] at h
    cases h
  · rw [if_neg h1] at h
    by_cases h2 : w < 1 ∨ heightChars w img.width img.height * 2 < 1
    · rw [if_pos h2] at h
      cases h
    · rw [if_neg h2] at h
      push_neg at h2
      refine ⟨by omega, h2.1, by omega, ?_⟩
      cases h
      rfl

theorem render_ok_of_pos (resample : Resample) (img : Raster) (w : Nat)
    (hW : 1 ≤ img.width) (hw : 1 ≤ w)
    (hhc : 1 ≤ heightChars w img.width img.height) :
    render resample img w
      = Except.ok (renderBody (resizedRaster resample img w)) := by
  unfold render
  rw [if_neg (by omega), if_neg (by omega)]

theorem renderBody_eq_sepJoin_rows (r : Raster) (hpar : r.height % 2 = 0) :
    renderBody r = sepJoin (renderRows r) := by
  unfold renderBody renderRows
  exact renderFrom_eq_sepJoin r ((r.height + 1) / 2) 0 (Or.inl (by omega))

/-! ## The claims -/

/-- **C1**, corrected.  The claimed grid geometry holds whenever the
computed character height `⌊target_width * (H/W) * 0.48⌋` is at least 1:
the render succeeds, the returned text is the separator-join of the grid,
the grid has exactly `height_chars` rows, and every row has exactly
`target_width` cells.  (The claim's further assertion that no exception is
raised when the computed character height is 0 is false: Pillow's `resize`
rejects a zero target dimension, see `c1_counterexample`.) -/
theorem c1_render_geometry (resample : Resample) (img : Raster) (w : Nat)
    (hW : 1 ≤ img.width) (_hH : 1 ≤ img.height) (hw : 1 ≤ w)
    (hhc : 1 ≤ heightChars w img.width img.height) :
    render resample img w
      = Except.ok (sepJoin (renderRows (resizedRaster resample img w))) ∧
    (renderRows (resizedRaster resample img w)).length
      = heightChars w img.width img.height ∧
    ∀ row ∈ renderRows (resizedRaster resample img w), row.length = w := by
  refine ⟨?_, ?_, ?_⟩
  · rw [render_ok_of_pos resample img w hW hw hhc,
      renderBody_eq_sepJoin_rows _ (by rw [resized_height]; omega)]
  · unfold renderRows
    rw [rowsFrom_length, resized_rowCount]
  · intro row hrow
    have := rowsFrom_mem_length (resizedRaster resample img w) _ _ row hrow
    rwa [resized_width] at this

/-- Witness for C1 at a concrete input: a 1×1 raster rendered at target
width 3 has `height_chars = ⌊3 * 1 * 0.48⌋ = 1`, one output row, three
cells per row. -/
theorem c1_witness :
    render nearestResample (constRaster 1 1 ⟨0, 0, 0, 0⟩) 3
      = Except.ok (sepJoin (renderRows
          (resizedRaster nearestResample (constRaster 1 1 ⟨0, 0, 0, 0⟩) 3))) ∧
    (renderRows (resizedRaster nearestResample (constRaster 1 1 ⟨0, 0, 0, 0⟩) 3)).length
      = heightChars 3 1 1 ∧
    ∀ row ∈ renderRows (resizedRaster nearestResample (constRaster 1 1 ⟨0, 0, 0, 0⟩) 3),
      row.length = 3 :=
  c1_render_geometry nearestResample (constRaster 1 1 ⟨0, 0, 0, 0⟩) 3
    (by decide) (by decide) (by decide) (by decide)

/-- **C1**, counterexample to the claim as stated: for a 100×1 raster at
target width 1 the computed character height is
`⌊1 * (1/100) * 0.48⌋ = 0`, and the render does not return a grid — the
resize call `img.resize((1, 0), LANCZOS)` raises
`ValueError: height and width must be > 0`, modelled as `PyErr.valueError`. -/
theorem c1_counterexample :
    heightChars 1 100 1 = 0 ∧
    render nearestResample (constRaster 100 1 ⟨10, 20, 30, 255⟩) 1
      = Except.error PyErr.valueError := by
  constructor
  · rfl
  · rfl

/-- **C3**, confirmed.  A raster with a zero dimension never yields a grid:
the render fails (width 0: `ZeroDivisionError` at `H / W`; height 0: the
computed resize height is 0 and Pillow's `resize` raises `ValueError`) —
the spec's `InvalidImage` failure, with no partial grid. -/
theorem c3_zero_dimension (resample : Resample) (img : Raster) (w : Nat)
    (h : img.width = 0 ∨ img.height = 0) :
    (∃ e, render resample img w = Except.error e) ∧
    ∀ t, render resample img w ≠ Except.ok t := by
  have herr : ∃ e, render resample img w = Except.error e := by
    by_cases hw0 : img.width = 0
    · exact ⟨PyErr.zeroDivision, by unfold render; rw [if_pos hw0]⟩
    · refine ⟨PyErr.valueError, ?_⟩
      have hh0 : img.height = 0 := h.resolve_left hw0
      have hc0 : heightChars w img.width img.height = 0 := by
        unfold heightChars
        rw [hh0]
        simp
      unfold render
      rw [if_neg hw0, if_pos (by omega)]
  obtain ⟨e, he⟩ := herr
  exact ⟨⟨e, he⟩, fun t hok => by rw [he] at hok; cases hok⟩

/-- Witness for C3 at a concrete input: a 0×3 raster. -/
theorem c3_witness :
    (∃ e, render nearestResample (constRaster 0 3 ⟨0, 0, 0, 0⟩) 5 = Except.error e) ∧
    ∀ t, render nearestResample (constRaster 0 3 ⟨0, 0, 0, 0⟩) 5 ≠ Except.ok t :=
  c3_zero_dimension nearestResample (constRaster 0 3 ⟨0, 0, 0, 0⟩) 5 (Or.inl rfl)

/-! ## Per-cell semantics -/

theorem mkCell_both (p1 p2 : RGBA) (h1 : 128 < p1.a) (h2 : 128 < p2.a) :
    mkCell p1 p2 = ⟨lowerHalfBlock, some p2.rgb, some p1.rgb⟩ := by
  unfold mkCell fgColor bgColor
  rw [if_pos h2, if_pos h1]

theorem mkCell_fgOnly (p1 p2 : RGBA) (h1 : p1.a ≤ 128) (h2 : 128 < p2.a) :
    mkCell p1 p2 = ⟨lowerHalfBlock, some p2.rgb, none⟩ := by
  unfold mkCell fgColor bgColor
  rw [if_pos h2, if_neg (by omega)]

theorem mkCell_bgOnly (p1 p2 : RGBA) (h1 : 128 < p1.a) (h2 : p2.a ≤ 128) :
    mkCell p1 p2 = ⟨upperHalfBlock, some p1.rgb, none⟩ := by
  unfold mkCell fgColor bgColor
  rw [if_neg (by omega), if_pos h1]

theorem mkCell_neither (p1 p2 : RGBA) (h1 : p1.a ≤ 128) (h2 : p2.a ≤ 128) :
    mkCell p1 p2 = blankCell := by
  unfold mkCell fgColor bgColor
  rw [if_neg (by omega), if_neg (by omega)]
  rfl

/-- **C2**, amended.  The per-cell case analysis holds exactly as claimed
except that the two half-block glyph names are swapped relative to the
code: the source emits `"▄"` (U+2584 LOWER HALF BLOCK) when the lower
(foreground) sample is opaque — with or without a background — and `"▀"`
(U+2580 UPPER HALF BLOCK) when only the upper (background) sample is
opaque.  Accordingly, an all-opaque uniformly colored input yields cells
with foreground = background = `(c,c,c)` and the LOWER half-block glyph. -/
theorem c2_cell_semantics :
    (∀ p1 p2 : RGBA, 128 < p1.a → 128 < p2.a →
      mkCell p1 p2 = ⟨lowerHalfBlock, some p2.rgb, some p1.rgb⟩) ∧
    (∀ p1 p2 : RGBA, p1.a ≤ 128 → 128 < p2.a →
      mkCell p1 p2 = ⟨lowerHalfBlock, some p2.rgb, none⟩) ∧
    (∀ p1 p2 : RGBA, 128 < p1.a → p2.a ≤ 128 →
      mkCell p1 p2 = ⟨upperHalfBlock, some p1.rgb, none⟩) ∧
    (∀ p1 p2 : RGBA, p1.a ≤ 128 → p2.a ≤ 128 → mkCell p1 p2 = blankCell) ∧
    (∀ (resample : Resample) (img : Raster) (w c : Nat) (t : List TextItem),
      PreservesConst resample → (∀ x y, img.pixel x y = ⟨c, c, c, 255⟩) →
      render resample img w = Except.ok t →
      ∀ q, TextItem.cell q ∈ t →
        q = ⟨lowerHalfBlock, some (c, c, c), some (c, c, c)⟩) := by
  refine ⟨mkCell_both, mkCell_fgOnly, mkCell_bgOnly, mkCell_neither, ?_⟩
  intro resample img w c t hres himg hok q hq
  obtain ⟨hW, hw, hhc, ht⟩ := render_ok_inv hok
  subst ht
  unfold renderBody at hq
  obtain ⟨k, x, hk, hx, hq'⟩ := cell_mem_renderFrom _ _ _ q hq
  have hpix : ∀ u v, (resizedRaster resample img w).pixel u v = ⟨c, c, c, 255⟩ :=
    fun u v => hres img w _ ⟨c, c, c, 255⟩ himg u v
  rw [resized_rowCount] at hk
  have hklt : 0 + 2 * k + 1 < (resizedRaster resample img w).height := by
    rw [resized_height]
    omega
  rw [if_pos hklt, hpix, hpix] at hq'
  rw [hq', mkCell_both _ _ (by simp) (by simp)]
  rfl

/-- **C2**, counterexample to the claim as stated: with both samples
opaque the emitted glyph is U+2584 LOWER HALF BLOCK, not the claimed
upper-half-block. -/
theorem c2_counterexample :
    (mkCell ⟨1, 2, 3, 255⟩ ⟨4, 5, 6, 255⟩).glyph = lowerHalfBlock ∧
    (mkCell ⟨1, 2, 3, 255⟩ ⟨4, 5, 6, 255⟩).glyph ≠ upperHalfBlock := by
  refine ⟨rfl, by decide⟩

/-- Witness for C2 at concrete samples, one per case of the analysis. -/
theorem c2_witness :
    mkCell ⟨1, 2, 3, 255⟩ ⟨4, 5, 6, 255⟩
      = ⟨lowerHalfBlock, some (4, 5, 6), some (1, 2, 3)⟩ ∧
    mkCell ⟨1, 2, 3, 0⟩ ⟨4, 5, 6, 255⟩ = ⟨lowerHalfBlock, some (4, 5, 6), none⟩ ∧
    mkCell ⟨1, 2, 3, 255⟩ ⟨4, 5, 6, 0⟩ = ⟨upperHalfBlock, some (1, 2, 3), none⟩ ∧
    mkCell ⟨1, 2, 3, 0⟩ ⟨4, 5, 6, 0⟩ = blankCell :=
  ⟨c2_cell_semantics.1 ⟨1, 2, 3, 255⟩ ⟨4, 5, 6, 255⟩ (by decide) (by decide),
   c2_cell_semantics.2.1 ⟨1, 2, 3, 0⟩ ⟨4, 5, 6, 255⟩ (by decide) (by decide),
   c2_cell_semantics.2.2.1 ⟨1, 2, 3, 255⟩ ⟨4, 5, 6, 0⟩ (by decide) (by decide),
   c2_cell_semantics.2.2.2.1 ⟨1, 2, 3, 0⟩ ⟨4, 5, 6, 0⟩ (by decide) (by decide)⟩

/-- **C4**, confirmed.  A sample is rendered for its slot exactly when its
alpha exceeds 128: alpha 128 is transparent, alpha 129 is opaque, and the
foreground slot depends only on the lower sample while the background slot
depends only on the upper sample (the cell is a function of the two slot
values alone). -/
theorem c4_alpha_threshold :
    (∀ p : RGBA, (fgColor p).isSome = true ↔ 128 < p.a) ∧
    (∀ p : RGBA, (bgColor p).isSome = true ↔ 128 < p.a) ∧
    (∀ r g b : Nat,
      fgColor ⟨r, g, b, 128⟩ = none ∧ bgColor ⟨r, g, b, 128⟩ = none ∧
      fgColor ⟨r, g, b, 129⟩ = some (r, g, b) ∧ bgColor ⟨r, g, b, 129⟩ = some (r, g, b)) ∧
    (∀ p1 p2 q1 q2 : RGBA, fgColor p2 = fgColor q2 → bgColor p1 = bgColor q1 →
      mkCell p1 p2 = mkCell q1 q2) := by
  refine ⟨?_, ?_, ?_, ?_⟩
  · intro p
    by_cases h : 128 < p.a <;> simp [fgColor, h]
  · intro p
    by_cases h : 128 < p.a <;> simp [bgColor, h]
  · intro r g b
    refine ⟨?_, ?_, ?_, ?_⟩ <;> norm_num [fgColor, bgColor, RGBA.rgb]
  · intro p1 p2 q1 q2 hfg hbg
    unfold mkCell
    rw [hfg, hbg]

/-- Witness for C4: the boundary alphas 128 and 129 at concrete colors,
and independence of the two slots at concrete samples whose slot values
agree while the raw samples differ. -/
theorem c4_witness :
    fgColor ⟨7, 8, 9, 128⟩ = none ∧ fgColor ⟨7, 8, 9, 129⟩ = some (7, 8, 9) ∧
    bgColor ⟨7, 8, 9, 128⟩ = none ∧ bgColor ⟨7, 8, 9, 129⟩ = some (7, 8, 9) ∧
    mkCell ⟨5, 5, 5, 100⟩ ⟨1, 1, 1, 200⟩ = mkCell ⟨6, 6, 6, 50⟩ ⟨1, 1, 1, 255⟩ :=
  ⟨(c4_alpha_threshold.2.2.1 7 8 9).1,
   (c4_alpha_threshold.2.2.1 7 8 9).2.2.1,
   (c4_alpha_threshold.2.2.1 7 8 9).2.1,
   (c4_alpha_threshold.2.2.1 7 8 9).2.2.2,
   c4_alpha_threshold.2.2.2 ⟨5, 5, 5, 100⟩ ⟨1, 1, 1, 200⟩ ⟨6, 6, 6, 50⟩ ⟨1, 1, 1, 255⟩
     (by decide) (by decide)⟩

/-- **C5**, amended.  With no explicit width or size the code computes
`min(console_width - 4, 100)`: the 4-character margin is applied before
clamping at 100, so the claimed formula `min(w, 100) - 4` agrees only for
`w ≤ 100`, and for every `w ≥ 104` the result is 100 (not 96). -/
theorem c5_default_width (w : Int) :
    resolveWidth none none w = min (w - 4) 100 ∧
    (w ≤ 100 → resolveWidth none none w = min w 100 - 4) ∧
    (104 ≤ w → resolveWidth none none w = 100) := by
  have h : resolveWidth none none w = min (w - 4) 100 := rfl
  refine ⟨h, ?_, ?_⟩
  · intro hw
    rw [h]
    omega
  · intro hw
    rw [h]
    omega

/-- **C5**, counterexample to the claim as stated: at detected terminal
width 200 the code hands the rendering loop `min(200 - 4, 100) = 100`,
while the claimed `min(200, 100) - 4` is 96. -/
theorem c5_counterexample :
    resolveWidth none none 200 = 100 ∧
    min (200 : Int) 100 - 4 = 96 ∧ (100 : Int) ≠ 96 := by
  refine ⟨?_, ?_, ?_⟩
  · norm_num [resolveWidth, truthy, min_def]
  · norm_num [min_def]
  · norm_num

/-- Witness for C5 at the concrete terminal widths 50 and 200. -/
theorem c5_witness :
    resolveWidth none none 50 = min (50 - 4 : Int) 100 ∧
    (resolveWidth none none 50 = min (50 : Int) 100 - 4) ∧
    (resolveWidth none none 200 = 100) :=
  ⟨(c5_default_width 50).1,
   (c5_default_width 50).2.1 (by norm_num),
   (c5_default_width 200).2.2 (by norm_num)⟩

/-- **C6**, confirmed.  A successful render has at least one grid row,
emits exactly `rows - 1` newline separators (one after every row pair but
the last), and never ends with a trailing separator. -/
theorem c6_separators (resample : Resample) (img : Raster) (w : Nat)
    (t : List TextItem) (h : render resample img w = Except.ok t) :
    1 ≤ (renderRows (resizedRaster resample img w)).length ∧
    countSep t = (renderRows (resizedRaster resample img w)).length - 1 ∧
    t.getLast? ≠ some TextItem.sep := by
  obtain ⟨hW, hw, hhc, ht⟩ := render_ok_inv h
  subst ht
  have hlen : (renderRows (resizedRaster resample img w)).length
      = heightChars w img.width img.height := by
    unfold renderRows
    rw [rowsFrom_length, resized_rowCount]
  have hpar : (resizedRaster resample img w).height % 2 = 0 := by
    rw [resized_height]
    omega
  have hjoin := renderBody_eq_sepJoin_rows _ hpar
  have hne : renderRows (resizedRaster resample img w) ≠ [] := by
    intro hnil
    rw [hnil] at hlen
    simp at hlen
    omega
  have hall : ∀ row ∈ renderRows (resizedRaster resample img w), row ≠ [] := by
    intro row hrow hnil
    unfold renderRows at hrow
    have := rowsFrom_mem_length _ _ _ row hrow
    rw [resized_width, hnil] at this
    simp at this
    omega
  refine ⟨by omega, ?_, ?_⟩
  · rw [hjoin, countSep_sepJoin _ hne, hlen]
  · obtain ⟨q, hq⟩ := sepJoin_getLast _ hne hall
    rw [hjoin, hq]
    simp

/-- Witness for C6: rendering a 1×1 raster at target width 3 produces one
row of three cells and no separator. -/
theorem c6_witness :
    1 ≤ (renderRows (resizedRaster nearestResample (constRaster 1 1 ⟨0, 0, 0, 0⟩) 3)).length ∧
    countSep [TextItem.cell blankCell, TextItem.cell blankCell, TextItem.cell blankCell]
      = (renderRows (resizedRaster nearestResample (constRaster 1 1 ⟨0, 0, 0, 0⟩) 3)).length - 1 ∧
    ([TextItem.cell blankCell, TextItem.cell blankCell, TextItem.cell blankCell]
      : List TextItem).getLast? ≠ some TextItem.sep :=
  c6_separators nearestResample (constRaster 1 1 ⟨0, 0, 0, 0⟩) 3
    [TextItem.cell blankCell, TextItem.cell blankCell, TextItem.cell blankCell] rfl

/-- Two fully transparent samples always yield the blank cell. -/
theorem transparent_mkCell (p1 p2 : RGBA) (h1 : p1.a = 0) (h2 : p2.a = 0) :
    mkCell p1 p2 = blankCell :=
  mkCell_neither p1 p2 (by omega) (by omega)

/-- **C7**, confirmed.  When the (resized) raster height is odd, the final
upper row has no paired lower row: every cell of the last output row is
built with the synthetic fully transparent pixel `(0, 0, 0, 0)` as its
lower (foreground) sample, and that sample's alpha 0 is below the opacity
threshold, so the foreground slot is absent. -/
theorem c7_odd_height_last_row (r : Raster) (h : r.height % 2 = 1) :
    (renderRows r).getLast?
      = some ((List.range r.width).map
          (fun x => mkCell (r.pixel x (r.height - 1)) ⟨0, 0, 0, 0⟩)) ∧
    fgColor ⟨0, 0, 0, 0⟩ = none := by
  refine ⟨?_, rfl⟩
  obtain ⟨m, hm⟩ : ∃ m, (r.height + 1) / 2 = m + 1 :=
    ⟨(r.height + 1) / 2 - 1, by omega⟩
  unfold renderRows
  rw [hm, rowsFrom_getLast]
  have hy : 0 + 2 * m = r.height - 1 := by omega
  rw [hy]
  unfold rowCells
  congr 1
  apply List.map_congr_left
  intro x _
  rw [if_neg (by omega)]

/-- Witness for C7: a 2×3 raster (odd height). -/
theorem c7_witness :
    (renderRows (constRaster 2 3 ⟨9, 9, 9, 255⟩)).getLast?
      = some ((List.range (constRaster 2 3 ⟨9, 9, 9, 255⟩).width).map
          (fun x => mkCell ((constRaster 2 3 ⟨9, 9, 9, 255⟩).pixel x
            ((constRaster 2 3 ⟨9, 9, 9, 255⟩).height - 1)) ⟨0, 0, 0, 0⟩)) ∧
    fgColor ⟨0, 0, 0, 0⟩ = none :=
  c7_odd_height_last_row (constRaster 2 3 ⟨9, 9, 9, 255⟩) (by decide)

/-- **C8**, confirmed.  For a fully transparent input (every pixel alpha 0)
and any alpha-respecting resampler, every cell of a successful render is
the blank glyph with neither foreground nor background color. -/
theorem c8_transparent_input (resample : Resample) (img : Raster) (w : Nat)
    (t : List TextItem) (hres : PreservesTransparent resample)
    (himg : ∀ x y, (img.pixel x y).a = 0)
    (hok : render resample img w = Except.ok t) :
    allCellsBlank t := by
  intro q hq
  obtain ⟨hW, hw, hhc, ht⟩ := render_ok_inv hok
  subst ht
  unfold renderBody at hq
  obtain ⟨k, x, hk, hx, hq'⟩ := cell_mem_renderFrom _ _ _ q hq
  have hpix : ∀ u v, ((resizedRaster resample img w).pixel u v).a = 0 :=
    fun u v => hres img w _ himg u v
  rw [hq']
  apply transparent_mkCell
  · exact hpix _ _
  · split
    · exact hpix _ _
    · rfl

/-- Witness for C8: a fully transparent 1×1 raster at target width 3. -/
theorem c8_witness :
    allCellsBlank [TextItem.cell blankCell, TextItem.cell blankCell, TextItem.cell blankCell] :=
  c8_transparent_input nearestResample (constRaster 1 1 ⟨0, 0, 0, 0⟩) 3
    [TextItem.cell blankCell, TextItem.cell blankCell, TextItem.cell blankCell]
    (fun _ _ _ hp _ _ => hp _ _) (fun _ _ => rfl) rfl

/-- **C9**, confirmed.  The renderer is a pure function of the raster
contents and the target width: two calls with the same resampler, equal
dimensions, and pixel-for-pixel equal contents produce identical results. -/
theorem c9_deterministic (resample : Resample) (img1 img2 : Raster) (w : Nat)
    (hW : img1.width = img2.width) (hH : img1.height = img2.height)
    (hpix : ∀ x y, img1.pixel x y = img2.pixel x y) :
    render resample img1 w = render resample img2 w := by
  obtain ⟨w1, h1, p1⟩ := img1
  obtain ⟨w2, h2, p2⟩ := img2
  dsimp only at hW hH hpix
  subst hW
  subst hH
  have hp : p1 = p2 := funext fun x => funext fun y => hpix x y
  subst hp
  rfl

/-- Witness for C9: two syntactically distinct rasters with identical
contents render identically. -/
theorem c9_witness :
    render nearestResample (constRaster 2 2 ⟨3, 1, 4, 255⟩) 5
      = render nearestResample ⟨2, 2, fun _ _ => ⟨3, 1, 4, 255⟩⟩ 5 :=
  c9_deterministic nearestResample (constRaster 2 2 ⟨3, 1, 4, 255⟩)
    ⟨2, 2, fun _ _ => ⟨3, 1, 4, 255⟩⟩ 5 rfl rfl (fun _ _ => rfl)

/-- **C10**, confirmed.  The resized raster's height is `height_chars * 2`,
hence always even; every grid row `k` reads pixel rows `2k` and `2k + 1`,
both strictly below the resized height, so the synthetic-transparent-pixel
branch of line 90 is unreachable in the actual pipeline: each row's cells
are built from two genuine resized pixel rows. -/
theorem c10_resized_height_even (resample : Resample) (img : Raster) (w : Nat) :
    (resizedRaster resample img w).height
      = heightChars w img.width img.height * 2 ∧
    (resizedRaster resample img w).height % 2 = 0 ∧
    renderRows (resizedRaster resample img w)
      = (List.range (heightChars w img.width img.height)).map
          (fun k => rowCells (resizedRaster resample img w) (2 * k)) ∧
    (∀ k, k < heightChars w img.width img.height →
      2 * k + 1 < (resizedRaster resample img w).height) ∧
    (∀ k, k < heightChars w img.width img.height →
      rowCells (resizedRaster resample img w) (2 * k)
        = (List.range w).map (fun x =>
            mkCell ((resizedRaster resample img w).pixel x (2 * k))
              ((resizedRaster resample img w).pixel x (2 * k + 1)))) := by
  refine ⟨rfl, by rw [resized_height]; omega, ?_, ?_, ?_⟩
  · unfold renderRows
    rw [resized_rowCount, rowsFrom_eq_map_range]
    apply List.map_congr_left
    intro k _
    congr 1
    omega
  · intro k hk
    rw [resized_height]
    omega
  · intro k hk
    unfold rowCells
    apply List.map_congr_left
    intro x _
    rw [if_pos (show 2 * k + 1 < (resizedRaster resample img w).height by
      rw [resized_height]; omega)]

/-- Witness for C10: concrete 1×1 raster at target width 3 (one grid row,
resized height 2). -/
theorem c10_witness :
    (resizedRaster nearestResample (constRaster 1 1 ⟨0, 0, 0, 0⟩) 3).height % 2 = 0 ∧
    2 * 0 + 1 < (resizedRaster nearestResample (constRaster 1 1 ⟨0, 0, 0, 0⟩) 3).height :=
  ⟨(c10_resized_height_even nearestResample (constRaster 1 1 ⟨0, 0, 0, 0⟩) 3).2.1,
   (c10_resized_height_even nearestResample (constRaster 1 1 ⟨0, 0, 0, 0⟩) 3).2.2.2.1 0
     (by decide)⟩
